import Mathlib

/-!
Verification of the backup-api core against its design specification.

The development shallowly embeds the two core modules:
  * `utils/ssh_client.py` (`SSHClient`): connect / exec_command /
    download_directory / delete_remote_directory / close, and
  * `modules/dockge.py` (`DockgeBackup`): the phase pipeline of
    `execute_backup` plus `_cleanup_old_backups` (local retention).

Remote-host behaviour (command outcomes, network success, transfer success,
file sizes, modification times) is supplied by explicit environment values,
so every embedded operation is a total computable function of the source
code's control flow over those inputs.  Python strings are modelled by Lean
`String`, with the string manipulation (strip/split/basename/substring)
re-implemented structurally over `String.data` so that concrete runs reduce
inside the kernel.
-/

/-! ## String helpers (Python `str.strip`, `str.split`, `os.path.basename`,
substring test, suffix test) -/

/-- Python `str.strip()` on the character list of a string. -/
def trimChars (l : List Char) : List Char :=
  ((l.dropWhile Char.isWhitespace).reverse.dropWhile Char.isWhitespace).reverse

/-- Python `str.split("\n")` : split a character list at newline characters. -/
def splitLines : List Char → List (List Char)
  | [] => [[]]
  | c :: rest =>
    let r := splitLines rest
    if c = '\n' then [] :: r
    else
      match r with
      | [] => [[c]]
      | h :: t => (c :: h) :: t

/-- `os.path.basename`: the part of a path after the last `/`. -/
def basename (p : String) : String :=
  ⟨(p.data.reverse.takeWhile (fun c => c ≠ '/')).reverse⟩

/-- Python `pat in s` (substring containment). -/
def containsSub (pat : List Char) (l : List Char) : Bool :=
  l.tails.any (fun t => pat.isPrefixOf t)

/-- Python `s.endswith(suffix)`. -/
def endsWithStr (s suffix : String) : Bool := suffix.data.isSuffixOf s.data

/-- Shell-style double quoting used by the f-strings of the source. -/
def quoted (s : String) : String := "\"" ++ s ++ "\""

/-! ## `SSHClient` (src/utils/ssh_client.py) -/

/-- The remote side of one `exec_command` call on a connected client:
either the channel raises (modelling the `except` branch) or the command
completes with an exit status and captured streams. -/
inductive CmdOutcome where
  | channelError (reason : String)
  | result (exitCode : Int) (stdout : String) (stderr : String)
  deriving DecidableEq

/-- The mutable attributes of an `SSHClient` instance that the control flow
inspects: whether `self.client` and `self.sftp` are set (not `None`). -/
structure SSHState where
  clientOpen : Bool
  sftpOpen : Bool
  deriving DecidableEq

/-- Authentication method chosen by `SSHClient.connect`. -/
inductive AuthMethod where
  | key (path : String)
  | pw (secret : String)
  deriving DecidableEq

/-- Result of `SSHClient.connect`: the returned boolean, whether
`paramiko.SSHClient.connect` (a network call) was reached, which credential
was put into the connection parameters, and the updated attributes. -/
structure ConnectResult where
  ok : Bool
  networkAttempted : Bool
  method : Option AuthMethod
  state : SSHState
  deriving DecidableEq

/-- Python truthiness of `self.key_path` combined with
`os.path.exists(self.key_path)` (ssh_client.py line 54). -/
def usableKeyPath (key_path : Option String) (fileExists : String → Bool) :
    Option String :=
  match key_path with
  | none => none
  | some p => if p ≠ "" ∧ fileExists p then some p else none

/-- Python truthiness of `self.password` (ssh_client.py line 57). -/
def pwTruthy : Option String → Bool
  | none => false
  | some s => decide (s ≠ "")

/-- `SSHClient.connect` (ssh_client.py lines 34-70).  `self.client` is
assigned before authentication is examined; with a usable key path the key
is used, otherwise a truthy password is used, otherwise the method returns
`False` without reaching `self.client.connect`.  `netOk` says whether the
network call succeeds; on its failure the exception handler returns
`False`. -/
def SSHClient.connect (key_path password : Option String)
    (fileExists : String → Bool) (netOk : Bool) (s : SSHState) : ConnectResult :=
  let s1 : SSHState := { s with clientOpen := true }
  match usableKeyPath key_path fileExists with
  | some p =>
      { ok := netOk, networkAttempted := true, method := some (.key p), state := s1 }
  | none =>
      match password with
      | some pw =>
          if pw ≠ "" then
            { ok := netOk, networkAttempted := true, method := some (.pw pw), state := s1 }
          else
            { ok := false, networkAttempted := false, method := none, state := s1 }
      | none => { ok := false, networkAttempted := false, method := none, state := s1 }

/-- `SSHClient.exec_command` (ssh_client.py lines 72-104): `(-1, "", "Not
connected")` when `self.client` is `None`, `(-1, "", str(e))` when the
channel raises, otherwise the command's real exit status and decoded
streams. -/
def exec_command (s : SSHState) (o : CmdOutcome) : Int × String × String :=
  if s.clientOpen = false then (-1, "", "Not connected")
  else
    match o with
    | .channelError reason => (-1, "", reason)
    | .result code out err => (code, out, err)

/-- `SSHClient.close` (ssh_client.py lines 215-224): release the SFTP
sub-channel if set, then the transport if set. -/
def SSHClient.close (s : SSHState) : SSHState :=
  let s1 := if s.sftpOpen then { s with sftpOpen := false } else s
  if s1.clientOpen then { s1 with clientOpen := false } else s1

/-! ### `SSHClient.download_directory`

A remote tree is a node: a file carries whether `sftp.get` for it succeeds,
a directory carries whether `listdir_attr` on it succeeds plus its entries.
`download_directory` returns the boolean result of the source together with
the local paths of the files actually written (partial downloads remain). -/

/-- A node of the remote tree, with the outcome of the transfer operations
touching it. -/
inductive RNode where
  | file (name : String) (ok : Bool)
  | dir (name : String) (listOk : Bool) (entries : List RNode)

mutual

/-- `SSHClient.download_directory` (ssh_client.py lines 136-172) applied to
a remote node, with `local_dir` the local destination.  Listing a
non-directory raises, hence `(false, [])` on a file node.  The value of the
recursive call for a sub-directory is discarded exactly as in the source
(line 161). -/
def download_directory (local_dir : String) : RNode → Bool × List String
  | .file _ _ => (false, [])
  | .dir _ listOk entries =>
      if listOk then downloadEntries local_dir entries else (false, [])

/-- The `for item in self.sftp.listdir_attr(remote_dir)` loop of
`download_directory`: a failing `sftp.get` of a direct file raises, aborting
the loop (the files already written stay); a failing recursive directory
download is swallowed inside the recursive call and ignored. -/
def downloadEntries (local_dir : String) : List RNode → Bool × List String
  | [] => (true, [])
  | RNode.file name ok :: rest =>
      if ok then
        let r := downloadEntries local_dir rest
        (r.1, (local_dir ++ "/" ++ name) :: r.2)
      else (false, [])
  | RNode.dir name listOk entries :: rest =>
      let sub := download_directory (local_dir ++ "/" ++ name)
        (RNode.dir name listOk entries)
      let r := downloadEntries local_dir rest
      (r.1, sub.2 ++ r.2)

end

/-- `SSHClient.delete_remote_directory` (ssh_client.py lines 197-208):
`rm -rf` via `exec_command`; success is exit code 0. -/
def delete_remote_directory (s : SSHState) (o : CmdOutcome) : Bool :=
  (exec_command s o).1 = 0

/-! ## `DockgeBackup` (src/modules/dockge.py)

The orchestrator drives one connected `SSHClient`.  The remote host's
behaviour during a run is an environment value: the outcome of each
`exec_command` call in issue order, the outcome of each transfer operation
of the SFTP mirror of the scratch directory (listing the scratch root,
fetching each staged archive), whether the local `chmod` succeeds, the
sizes the downloaded archives have locally, and the other `*.tar.gz` files
already under the local destination tree. -/

/-- The machine entry of `machines.yaml` (the keys `execute_backup`
reads). -/
structure MachineConfig where
  id : String
  host : String
  ssh_user : String
  ssh_port : Option Nat := none
  ssh_key_path : Option String := none
  ssh_password : Option String := none
  remote_tmp_dir : Option String := none
  local_backup_dir : Option String := none
  retention_count : Option Nat := none

/-- An archive produced remotely by one `tar` command of the run:
`source` is the per-source subdirectory of the scratch directory and
`filename` the archive file name. -/
structure Archive where
  source : String
  filename : String
  deriving DecidableEq

/-- Environment of one run: everything outside the orchestrator's control.
`scratchListOk` is the outcome of `listdir_attr` on the scratch directory
itself during the download, and `transferOk` the outcome of the `sftp.get`
of each staged archive. -/
structure RunEnv where
  fileExists : String → Bool
  netOk : Bool
  timestamp : String
  cmds : List CmdOutcome
  scratchListOk : Bool
  transferOk : Archive → Bool
  chmodOk : Bool
  sizeOf : String → Nat
  otherLocal : List (String × Option Nat)

/-- Orchestrator-side session bookkeeping: the command outcomes not yet
consumed, the command strings issued so far, and the archives created so
far. -/
structure ExecSt where
  pending : List CmdOutcome
  issued : List String
  archives : List Archive
  deriving DecidableEq

/-- Issue one remote command through the connected client: consume the next
outcome (an exhausted environment behaves as a channel error) and record the
command string. -/
def exec1 (cmd : String) (st : ExecSt) : (Int × String × String) × ExecSt :=
  match st.pending with
  | [] => ((-1, "", "no outcome"),
      { st with issued := st.issued ++ [cmd] })
  | o :: rest => (exec_command ⟨true, false⟩ o,
      { st with pending := rest, issued := st.issued ++ [cmd] })

/-- `self.stacks_dir` (dockge.py line 19). -/
def stacksDirDefault : String := "/opt/stacks"

/-- `self.dockge_dir` (dockge.py line 20). -/
def dockgeDirDefault : String := "/opt/dockge"

/-- `<source>_<timestamp>.tar.gz` (dockge.py lines 149, 154, 189). -/
def archiveName (src ts : String) : String := src ++ "_" ++ ts ++ ".tar.gz"

/-- The `mkdir -p` command string (dockge.py lines 110, 144, 185). -/
def mkdirCmd (d : String) : String := "mkdir -p " ++ quoted d

/-- The stack listing command (dockge.py line 125). -/
def findStacksCmd (stacks_dir : String) : String :=
  "find " ++ quoted stacks_dir ++ " -maxdepth 1 -type d ! -path " ++ quoted stacks_dir

/-- The per-stack `tar` command (dockge.py lines 147-156): the stack named
`fireshare` excludes its `videos` subfolder. -/
def tarStackCmd (stacks_dir stack_backup_dir stack_name ts : String) : String :=
  if stack_name = "fireshare" then
    "tar -czf " ++ quoted (stack_backup_dir ++ "/" ++ archiveName stack_name ts) ++
      " --exclude=" ++ quoted "videos" ++ " -C " ++ quoted stacks_dir ++ " " ++
      quoted stack_name
  else
    "tar -czf " ++ quoted (stack_backup_dir ++ "/" ++ archiveName stack_name ts) ++
      " -C " ++ quoted stacks_dir ++ " " ++ quoted stack_name

/-- The dockge-directory existence check command (dockge.py line 176). -/
def dockgeCheckCmd (d : String) : String :=
  "[ -d " ++ quoted d ++ " ] && echo " ++ quoted "exists"

/-- The dockge-directory `tar` command (dockge.py lines 188-191). -/
def tarDockgeCmd (dockge_dir dockge_backup_dir ts : String) : String :=
  "tar -czf " ++ quoted (dockge_backup_dir ++ "/" ++ archiveName "dockge" ts) ++
    " -C \"$(dirname " ++ quoted dockge_dir ++ ")\" \"$(basename " ++
    quoted dockge_dir ++ ")\""

/-- The remote cleanup command (ssh_client.py line 207). -/
def rmCmd (d : String) : String := "rm -rf " ++ quoted d

/-- Parsing of the `find` output (dockge.py line 131): strip the whole
output, split on newlines, strip each line, drop empty lines. -/
def parseStackDirs (stdout : String) : List String :=
  ((splitLines (trimChars stdout.data)).map (fun l => String.mk (trimChars l))).filter
    (fun s => s ≠ "")

/-- `DockgeBackup._create_remote_backup_dir` (dockge.py lines 105-115). -/
def create_remote_backup_dir (backup_dir : String) (st : ExecSt) :
    (Bool × String) × ExecSt :=
  let (r, st) := exec1 (mkdirCmd backup_dir) st
  if r.1 = 0 then ((true, "Backup directory created"), st)
  else ((false, "Failed to create backup directory: " ++ r.2.2), st)

/-- One iteration of the stack loop of `_backup_stacks` (dockge.py lines
138-164): `mkdir -p` for the per-stack directory (result ignored), then the
`tar` command; a nonzero `tar` exit aborts with the failure message,
otherwise the created archive is recorded. -/
def backup_one_stack (stacks_dir backup_dir ts stack_path : String)
    (st : ExecSt) : Option String × ExecSt :=
  let stack_name := basename stack_path
  let stack_backup_dir := backup_dir ++ "/" ++ stack_name
  let (_, st) := exec1 (mkdirCmd stack_backup_dir) st
  let (r, st) := exec1 (tarStackCmd stacks_dir stack_backup_dir stack_name ts) st
  if r.1 ≠ 0 then (some ("Failed to backup stack " ++ stack_name), st)
  else (none,
    { st with archives := st.archives ++ [⟨stack_name, archiveName stack_name ts⟩] })

/-- The `for stack_path in stack_dirs` loop of `_backup_stacks`, stopping at
the first failed stack. -/
def backup_stacks_loop (stacks_dir backup_dir ts : String) :
    List String → ExecSt → Option String × ExecSt
  | [], st => (none, st)
  | p :: rest, st =>
    match backup_one_stack stacks_dir backup_dir ts p st with
    | (some msg, st) => (some msg, st)
    | (none, st) => backup_stacks_loop stacks_dir backup_dir ts rest st

/-- `DockgeBackup._backup_stacks` (dockge.py lines 117-166). -/
def backup_stacks (stacks_dir backup_dir ts : String) (st : ExecSt) :
    (Bool × String) × ExecSt :=
  let (r, st) := exec1 (findStacksCmd stacks_dir) st
  if r.1 ≠ 0 then ((false, "Failed to list stacks: " ++ r.2.2), st)
  else
    let stack_dirs := parseStackDirs r.2.1
    if stack_dirs.isEmpty then ((true, "No stacks found"), st)
    else
      match backup_stacks_loop stacks_dir backup_dir ts stack_dirs st with
      | (some msg, st) => ((false, msg), st)
      | (none, st) =>
          ((true, "Backed up " ++ toString stack_dirs.length ++ " stacks"), st)

/-- `DockgeBackup._backup_dockge` (dockge.py lines 168-200): an existence
check whose failure (nonzero or error exit, or `exists` absent from stdout)
is a skipped success; otherwise `mkdir -p` (result ignored) and the `tar`
command. -/
def backup_dockge (dockge_dir backup_dir ts : String) (st : ExecSt) :
    (Bool × String) × ExecSt :=
  let (r, st) := exec1 (dockgeCheckCmd dockge_dir) st
  if r.1 ≠ 0 ∨ containsSub "exists".data r.2.1.data = false then
    ((true, "Dockge directory not found (skipped)"), st)
  else
    let dockge_backup_dir := backup_dir ++ "/dockge"
    let (_, st) := exec1 (mkdirCmd dockge_backup_dir) st
    let (r2, st) := exec1 (tarDockgeCmd dockge_dir dockge_backup_dir ts) st
    if r2.1 ≠ 0 then ((false, "Failed to backup Dockge directory"), st)
    else ((true, "Backed up Dockge directory"),
      { st with archives := st.archives ++ [⟨"dockge", archiveName "dockge" ts⟩] })

/-- The local path at which the SFTP mirror of the scratch directory places
an archive: `download_directory` joins the local destination with each
remote entry name, so an archive staged at `<scratch>/<source>/<filename>`
lands at `<local_backup_dir>/<source>/<filename>`. -/
def mirrorPath (local_dir : String) (a : Archive) : String :=
  local_dir ++ "/" ++ a.source ++ "/" ++ a.filename

/-- The remote scratch directory at download time, as a transfer tree for
`download_directory`: one subdirectory per recorded archive holding that
archive file, the listing outcome of the scratch root and the `sftp.get`
outcome of each archive supplied by the environment.  (A failed listing of
a per-source subdirectory is observationally the failure of its archive's
transfer — both are swallowed inside the recursive call — so only the
per-archive outcome is modelled.) -/
def scratchTreeOf (env : RunEnv) (archives : List Archive) : RNode :=
  .dir "" env.scratchListOk
    (archives.map (fun a =>
      RNode.dir a.source true [RNode.file a.filename (env.transferOk a)]))

/-- `DockgeBackup._download_backups` (dockge.py lines 202-226): the phase
result is whatever boolean `SSHClient.download_directory` returns on the
staged scratch tree — per that function's code a transfer failure inside a
per-source subdirectory is swallowed (ssh_client.py line 161), so the phase
can report success for a partial mirror.  Afterwards the local tree holds
exactly the files `download_directory` wrote (with the sizes the
environment gives them) next to the other `*.tar.gz` files already present;
a failed `chmod -R 770` only adds a warning.  Returns the phase result, the
`*.tar.gz` files under the local tree afterwards, and the warnings
logged. -/
def download_backups (local_dir : String) (scratch : RNode) (chmodOk : Bool)
    (sizeOf : String → Nat) (otherLocal : List (String × Option Nat)) :
    (Bool × String) × List (String × Option Nat) × List String :=
  let dl := download_directory local_dir scratch
  if dl.1 then
    let files := otherLocal ++ dl.2.map (fun p => (p, some (sizeOf p)))
    let warns := if chmodOk then [] else ["Failed to set permissions"]
    ((true, "Backups downloaded successfully"), files, warns)
  else ((false, "Failed to download backups"), [], [])

/-- The per-file loop of `_verify_backups` (dockge.py lines 241-249): the
first vanished or implausibly small file yields the failure message. -/
def verifyLoop : List (String × Option Nat) → Option String
  | [] => none
  | (p, none) :: _ => some ("Backup file missing: " ++ p)
  | (p, some sz) :: rest =>
      if sz < 100 then
        some ("Backup file too small: " ++ p ++ " (" ++ toString sz ++ " bytes)")
      else verifyLoop rest

/-- `DockgeBackup._verify_backups` (dockge.py lines 228-251) applied to the
`glob` result (`(path, size)` pairs, `none` for a file that vanished before
`os.path.exists`). -/
def verify_backups (files : List (String × Option Nat)) : Bool × String :=
  if files.isEmpty then (false, "No backup files found after download")
  else
    match verifyLoop files with
    | some msg => (false, msg)
    | none => (true, "Verified " ++ toString files.length ++ " backup files")

/-- `DockgeBackup._cleanup_remote` (dockge.py lines 253-264). -/
def cleanup_remote (remote_tmp_dir : String) (st : ExecSt) :
    (Bool × String) × ExecSt :=
  let (r, st) := exec1 (rmCmd remote_tmp_dir) st
  if r.1 = 0 then ((true, "Remote cleanup successful"), st)
  else ((false, "Failed to cleanup remote backup directory"), st)

/-- Result of one `execute_backup` run: the returned pair, the warnings
logged, the commands issued, the archives created remotely, the `*.tar.gz`
files under the local tree at verification time, and whether the session
was closed (the `finally` block). -/
structure RunResult where
  success : Bool
  message : String
  warnings : List String
  issued : List String
  archives : List Archive
  localFiles : List (String × Option Nat)
  closed : Bool
  deriving DecidableEq

/-- Phases 2-5 of `execute_backup` (dockge.py lines 52-79): scratch
directory creation, stack archiving, dockge archiving, the
`local_backup_dir` configuration check, and the download.  On success it
yields the verification-time file list, the warnings so far and the session
state; on failure the phase's message and the state at failure. -/
def phasesBeforeVerify (cfg : MachineConfig) (env : RunEnv) (ts : String) :
    Except (String × ExecSt) ((List (String × Option Nat)) × List String × ExecSt) :=
  let remote_tmp_dir := cfg.remote_tmp_dir.getD "/tmp/dockge-backup"
  let st0 : ExecSt := ⟨env.cmds, [], []⟩
  let (r1, st1) := create_remote_backup_dir remote_tmp_dir st0
  if r1.1 = false then .error (r1.2, st1)
  else
    let (r2, st2) := backup_stacks stacksDirDefault remote_tmp_dir ts st1
    if r2.1 = false then .error (r2.2, st2)
    else
      let (r3, st3) := backup_dockge dockgeDirDefault remote_tmp_dir ts st2
      if r3.1 = false then .error (r3.2, st3)
      else
        match cfg.local_backup_dir with
        | none => .error ("local_backup_dir not configured for machine", st3)
        | some local_dir =>
          let (r4, files, warns) := download_backups local_dir
            (scratchTreeOf env st3.archives) env.chmodOk env.sizeOf env.otherLocal
          if r4.1 = false then .error (r4.2, st3)
          else .ok (files, warns, st3)

/-- Phases 8-9 of `execute_backup` (dockge.py lines 86-96): remote cleanup
whose failure only logs a warning, then local retention
(`_cleanup_old_backups` returns nothing and swallows every exception, so it
cannot alter the outcome), then the success result. -/
def finishRun (cfg : MachineConfig) (files : List (String × Option Nat))
    (warns : List String) (st : ExecSt) : RunResult :=
  let remote_tmp_dir := cfg.remote_tmp_dir.getD "/tmp/dockge-backup"
  let (cr, st) := cleanup_remote remote_tmp_dir st
  let warns := if cr.1 then warns else warns ++ ["Cleanup warning: " ++ cr.2]
  { success := true, message := "Backup completed successfully for " ++ cfg.id,
    warnings := warns, issued := st.issued, archives := st.archives,
    localFiles := files, closed := true }

/-- `DockgeBackup.execute_backup` (dockge.py lines 22-103): connect, then
the phase pipeline, each phase gated on the previous one, the session closed
on every exit path. -/
def execute_backup (cfg : MachineConfig) (env : RunEnv) : RunResult :=
  let c := SSHClient.connect cfg.ssh_key_path cfg.ssh_password env.fileExists
    env.netOk ⟨false, false⟩
  if c.ok = false then
    { success := false, message := "Failed to connect to " ++ cfg.host,
      warnings := [], issued := [], archives := [], localFiles := [],
      closed := true }
  else
    let ts := env.timestamp
    match phasesBeforeVerify cfg env ts with
    | .error (msg, st) =>
        { success := false, message := msg, warnings := [], issued := st.issued,
          archives := st.archives, localFiles := [], closed := true }
    | .ok (files, warns, st) =>
        let vr := verify_backups files
        if vr.1 = false then
          { success := false, message := vr.2, warnings := warns,
            issued := st.issued, archives := st.archives, localFiles := files,
            closed := true }
        else finishRun cfg files warns st

/-! ## `DockgeBackup._cleanup_old_backups` (dockge.py lines 266-301)

Retention works per directory of the recursive `os.walk`: a directory is a
list of files, each with a name, a modification time, a content blob and
the outcome its `os.remove` would have. -/

/-- One file of a local directory at pruning time. -/
structure LFile where
  name : String
  mtime : Nat
  content : String
  removeFails : Bool
  deriving DecidableEq

/-- Insertion into a list already sorted by descending modification time,
placing the new file after files of equal modification time — the stable
descending order of Python `list.sort(key=..., reverse=True)`. -/
def insertByMtime (a : LFile) : List LFile → List LFile
  | [] => [a]
  | b :: l => if b.mtime < a.mtime then a :: b :: l else b :: insertByMtime a l

/-- `full_paths.sort(key=os.path.getmtime, reverse=True)` (dockge.py line
289): stable sort, newest first. -/
def sortByMtimeDesc (l : List LFile) : List LFile :=
  l.foldl (fun acc a => insertByMtime a acc) []

/-- The per-directory body of `_cleanup_old_backups` (dockge.py lines
280-298): keep directories with at most `keep` matching archives untouched;
otherwise sort the matching archives newest first and delete the excess,
one at a time, skipping (and keeping) any file whose deletion fails. -/
def pruneDir (keep : Nat) (files : List LFile) : List LFile :=
  let backups := files.filter (fun f => endsWithStr f.name ".tar.gz")
  if backups.length ≤ keep then files
  else
    let sorted := sortByMtimeDesc backups
    let removedNames :=
      ((sorted.drop keep).filter (fun f => !f.removeFails)).map LFile.name
    files.filter (fun f => decide (f.name ∉ removedNames))

/-- `DockgeBackup._cleanup_old_backups`: the `os.walk` applies the
per-directory pruning to every directory under the local destination tree. -/
def cleanup_old_backups (keep : Nat) (dirs : List (List LFile)) :
    List (List LFile) :=
  dirs.map (pruneDir keep)

/-- Matching-archive count with strictly newer modification time, used to
phrase "the `keep` most recently modified files". -/
def newerCount (files : List LFile) (f : LFile) : Nat :=
  ((files.filter (fun g => endsWithStr g.name ".tar.gz")).filter
    (fun g => f.mtime < g.mtime)).length

/-- All archives of a run carry the run's single timestamp token in their
file name. -/
def ArchivesStamped (ts : String) (l : List Archive) : Prop :=
  ∀ a ∈ l, a.filename = archiveName a.source ts

/-- Invariant carried by the pipeline state before verification: on every
exit of `phasesBeforeVerify`, all recorded archives carry the run timestamp,
and on the success exit the verification-time file list is the pre-existing
archives plus those archives of this run whose transfer succeeded, at their
mirrored local paths (a swallowed nested transfer failure leaves its archive
out of the list without failing the phase). -/
def PhProp (cfg : MachineConfig) (env : RunEnv) (ts : String) :
    Except (String × ExecSt)
      ((List (String × Option Nat)) × List String × ExecSt) → Prop
  | .error (_, st) => ArchivesStamped ts st.archives
  | .ok (files, _, st) =>
      ArchivesStamped ts st.archives
      ∧ ∃ local_dir, cfg.local_backup_dir = some local_dir
        ∧ files = env.otherLocal ++
            (st.archives.filter (fun a => env.transferOk a)).map (fun a =>
              (mirrorPath local_dir a, some (env.sizeOf (mirrorPath local_dir a))))

/-! ### Concrete machines and environments used as witnesses and
counterexamples -/

/-- Machine for the C2 counterexample run. -/
def c2Cfg : MachineConfig :=
  { id := "m1", host := "10.0.0.5", ssh_user := "root",
    ssh_password := some "pw", local_backup_dir := some "/backups" }

/-- Environment for the C2 counterexample run: scratch `mkdir` succeeds, the
stack listing succeeds with empty output, the dockge directory is absent,
the download succeeds, and no archive exists under the local tree. -/
def c2Env : RunEnv :=
  { fileExists := fun _ => false, netOk := true, timestamp := "2025_001_120000",
    cmds := [.result 0 "" "", .result 0 "" "", .result 1 "" ""],
    scratchListOk := true, transferOk := fun _ => true,
    chmodOk := true, sizeOf := fun _ => 1000,
    otherLocal := [] }

/-- Machine for the C3 witness run. -/
def c3Cfg : MachineConfig :=
  { id := "m3", host := "10.0.0.5", ssh_user := "root",
    ssh_password := some "pw", local_backup_dir := some "/backups" }

/-- Environment for the C3 witness run: one stack archives successfully and
every prior phase succeeds, but the downloaded archive is 50 bytes. -/
def c3Env : RunEnv :=
  { fileExists := fun _ => false, netOk := true, timestamp := "2025_002_130000",
    cmds := [.result 0 "" "", .result 0 "/opt/stacks/app1\n" "", .result 0 "" "",
             .result 0 "" "", .result 1 "" ""],
    scratchListOk := true, transferOk := fun _ => true,
    chmodOk := true, sizeOf := fun _ => 50,
    otherLocal := [] }

/-- Machine for the C5 witness run. -/
def c5Cfg : MachineConfig :=
  { id := "m5", host := "10.0.0.5", ssh_user := "root",
    ssh_password := some "pw", local_backup_dir := some "/backups" }

/-- Environment for the C5 witness run: one stack and the dockge directory
both archive successfully, everything downloads and verifies. -/
def c5Env : RunEnv :=
  { fileExists := fun _ => false, netOk := true, timestamp := "2025_003_140000",
    cmds := [.result 0 "" "", .result 0 "/opt/stacks/app1\n" "",
             .result 0 "" "", .result 0 "" "",
             .result 0 "exists\n" "", .result 0 "" "", .result 0 "" "",
             .result 0 "" ""],
    scratchListOk := true, transferOk := fun _ => true,
    chmodOk := true, sizeOf := fun _ => 4096,
    otherLocal := [] }

/-- Machine for the C5 counterexample run. -/
def c5xCfg : MachineConfig :=
  { id := "m5x", host := "10.0.0.5", ssh_user := "root",
    ssh_password := some "pw", local_backup_dir := some "/backups" }

/-- Environment for the C5 counterexample run: two stacks archive remotely,
the transfer of the second stack's archive fails inside its per-source
subdirectory (so the failure is swallowed), the first archive downloads,
verifies and the remote cleanup succeeds. -/
def c5xEnv : RunEnv :=
  { fileExists := fun _ => false, netOk := true, timestamp := "2025_005_160000",
    cmds := [.result 0 "" "", .result 0 "/opt/stacks/app1\n/opt/stacks/app2\n" "",
             .result 0 "" "", .result 0 "" "",
             .result 0 "" "", .result 0 "" "",
             .result 1 "" "", .result 0 "" ""],
    scratchListOk := true, transferOk := fun a => decide (a.source = "app1"),
    chmodOk := true, sizeOf := fun _ => 1000,
    otherLocal := [] }

/-- Machine for the C8 witness run. -/
def c8Cfg : MachineConfig :=
  { id := "m8", host := "10.0.0.5", ssh_user := "root",
    ssh_password := some "pw", local_backup_dir := some "/backups" }

/-- Environment for the C8 witness run: one stack backs up, downloads and
verifies, and then the remote `rm -rf` exits nonzero. -/
def c8Env : RunEnv :=
  { fileExists := fun _ => false, netOk := true, timestamp := "2025_004_150000",
    cmds := [.result 0 "" "", .result 0 "/opt/stacks/app1\n" "", .result 0 "" "",
             .result 0 "" "", .result 1 "" "", .result 1 "" "removal failed"],
    scratchListOk := true, transferOk := fun _ => true,
    chmodOk := true, sizeOf := fun _ => 1000,
    otherLocal := [] }

/-- Oldest archive of the C4 witness directory; its deletion fails. -/
def c4f1 : LFile := ⟨"b1.tar.gz", 10, "x1", true⟩

/-- Second-oldest archive of the C4 witness directory; its deletion
succeeds. -/
def c4f2 : LFile := ⟨"b2.tar.gz", 20, "x2", false⟩

/-- Third archive of the C4 witness directory. -/
def c4f3 : LFile := ⟨"b3.tar.gz", 30, "x3", false⟩

/-- Fourth archive of the C4 witness directory. -/
def c4f4 : LFile := ⟨"b4.tar.gz", 40, "x4", false⟩

/-- Newest archive of the C4 witness directory. -/
def c4f5 : LFile := ⟨"b5.tar.gz", 50, "x5", false⟩

/-- The C4 witness directory: five archives with distinct modification
times, retention count three, one failing deletion among the two oldest. -/
def c4Files : List LFile := [c4f1, c4f2, c4f3, c4f4, c4f5]

/-! ## Theorems -/

/-- Helper: `SSHClient.connect` assigns `self.client` before examining the
credentials, so the resulting attributes always have the client set and the
SFTP flag untouched. -/
theorem connect_state_eq (kp pw : Option String) (fe : String → Bool)
    (netOk : Bool) (s : SSHState) :
    (SSHClient.connect kp pw fe netOk s).state = ⟨true, s.sftpOpen⟩ := by
  unfold SSHClient.connect
  cases usableKeyPath kp fe <;> cases pw <;> simp <;> split <;> rfl

/-- C9: `close` is idempotent — closing twice equals closing once — it is
total on every session state (including never-connected states and the
state left by any `connect` call, successful or failed), and afterwards both
the transport and the SFTP sub-channel are released. -/
theorem claim_C9_close_idempotent :
    ∀ s : SSHState,
      SSHClient.close (SSHClient.close s) = SSHClient.close s
      ∧ (SSHClient.close s).clientOpen = false
      ∧ (SSHClient.close s).sftpOpen = false
      ∧ (∀ (kp pw : Option String) (fe : String → Bool) (netOk : Bool),
          SSHClient.close (SSHClient.connect kp pw fe netOk s).state
            = ⟨false, false⟩) := by
  intro s
  obtain ⟨c, f⟩ := s
  refine ⟨?_, ?_, ?_, ?_⟩
  · cases c <;> cases f <;> rfl
  · cases c <;> cases f <;> rfl
  · cases c <;> cases f <;> rfl
  · intro kp pw fe netOk
    rw [connect_state_eq]
    cases f <;> rfl

/-- C7: `exec_command` returns `(-1, "", "Not connected")` when the client
is not set, `(-1, "", reason)` when the channel errors, and otherwise the
command's real exit code with its captured, decoded streams; being a total
function it never raises past the session boundary. -/
theorem claim_C7_exec_command :
    ∀ (s : SSHState) (o : CmdOutcome),
      (s.clientOpen = false → exec_command s o = (-1, "", "Not connected"))
      ∧ (∀ reason, s.clientOpen = true → o = .channelError reason →
          exec_command s o = (-1, "", reason))
      ∧ (∀ code out err, s.clientOpen = true → o = .result code out err →
          exec_command s o = (code, out, err)) := by
  intro s o
  refine ⟨fun h => by simp [exec_command, h],
    fun reason hs ho => by simp [exec_command, hs, ho],
    fun code out err hs ho => by simp [exec_command, hs, ho]⟩

/-- Witness for C7 at concrete inputs: a disconnected session, an erroring
channel, and a real command result. -/
theorem claim_C7_exec_command_witness :
    exec_command ⟨false, false⟩ (.result 0 "out" "err") = (-1, "", "Not connected")
    ∧ exec_command ⟨true, false⟩ (.channelError "boom") = (-1, "", "boom")
    ∧ exec_command ⟨true, false⟩ (.result 7 "o" "e") = (7, "o", "e") :=
  ⟨(claim_C7_exec_command ⟨false, false⟩ (.result 0 "out" "err")).1 rfl,
   (claim_C7_exec_command ⟨true, false⟩ (.channelError "boom")).2.1 "boom" rfl rfl,
   (claim_C7_exec_command ⟨true, false⟩ (.result 7 "o" "e")).2.2 7 "o" "e" rfl rfl⟩

/-- C6: with neither a usable key path nor a truthy password, `connect`
returns false without reaching the network call; with a usable key path it
uses key authentication, otherwise password authentication; and it returns
false (it is a total function, so it never raises) whenever the network
call fails. -/
theorem claim_C6_connect_auth :
    ∀ (kp pw : Option String) (fe : String → Bool) (netOk : Bool) (s : SSHState),
      (usableKeyPath kp fe = none → pwTruthy pw = false →
        (SSHClient.connect kp pw fe netOk s).ok = false
        ∧ (SSHClient.connect kp pw fe netOk s).networkAttempted = false)
      ∧ (∀ p, usableKeyPath kp fe = some p →
        (SSHClient.connect kp pw fe netOk s).method = some (.key p)
        ∧ (SSHClient.connect kp pw fe netOk s).ok = netOk)
      ∧ (usableKeyPath kp fe = none → pwTruthy pw = true →
        (∃ secret, pw = some secret
          ∧ (SSHClient.connect kp pw fe netOk s).method = some (.pw secret))
        ∧ (SSHClient.connect kp pw fe netOk s).ok = netOk)
      ∧ (netOk = false → (SSHClient.connect kp pw fe netOk s).ok = false) := by
  intro kp pw fe netOk s
  refine ⟨?_, ?_, ?_, ?_⟩
  · intro hk hp
    cases pw with
    | none => simp [SSHClient.connect, hk]
    | some secret =>
        simp only [pwTruthy, decide_eq_false_iff_not, not_not] at hp
        simp [SSHClient.connect, hk, hp]
  · intro p hk
    simp [SSHClient.connect, hk]
  · intro hk hp
    cases pw with
    | none => simp [pwTruthy] at hp
    | some secret =>
        simp only [pwTruthy, decide_eq_true_eq] at hp
        exact ⟨⟨secret, rfl, by simp [SSHClient.connect, hk, hp]⟩,
          by simp [SSHClient.connect, hk, hp]⟩
  · intro hn
    unfold SSHClient.connect
    cases usableKeyPath kp fe <;> cases pw <;> simp [hn] <;> split <;> simp [hn]

/-- Witness for C6 at concrete inputs: no credentials at all, a usable key
path, a password-only descriptor, and a failing network call. -/
theorem claim_C6_connect_auth_witness :
    ((SSHClient.connect none none (fun _ => false) true ⟨false, false⟩).ok = false
      ∧ (SSHClient.connect none none (fun _ => false) true
          ⟨false, false⟩).networkAttempted = false)
    ∧ (SSHClient.connect (some "/k") none (fun _ => true) true ⟨false, false⟩).method
        = some (.key "/k")
    ∧ (SSHClient.connect none (some "pw") (fun _ => true) true ⟨false, false⟩).method
        = some (.pw "pw")
    ∧ (SSHClient.connect none (some "pw") (fun _ => true) false ⟨false, false⟩).ok
        = false :=
  ⟨(claim_C6_connect_auth none none (fun _ => false) true ⟨false, false⟩).1 rfl rfl,
   ((claim_C6_connect_auth (some "/k") none (fun _ => true) true
      ⟨false, false⟩).2.1 "/k" rfl).1,
   (by
      obtain ⟨⟨secret, hsec, hm⟩, -⟩ :=
        (claim_C6_connect_auth none (some "pw") (fun _ => true) true
          ⟨false, false⟩).2.2.1 rfl rfl
      cases Option.some.inj hsec
      exact hm),
   (claim_C6_connect_auth none (some "pw") (fun _ => true) false
      ⟨false, false⟩).2.2.2 rfl⟩

/-- C1: evaluation of `download_directory` at a remote tree whose only file
sits in a subdirectory and fails to transfer.  The recursive call for the
subdirectory returns false (second conjunct), yet its value is discarded
(ssh_client.py line 161) and the top-level call returns true (first
conjunct) — contradicting both the claim and the function's own docstring. -/
theorem claim_C1_nested_failure_returns_true :
    download_directory "/backups"
        (.dir "backup" true [.dir "app1" true [.file "a.tar.gz" false]])
      = (true, [])
    ∧ download_directory "/backups/app1"
        (.dir "app1" true [.file "a.tar.gz" false])
      = (false, []) := by
  constructor <;> simp [download_directory, downloadEntries]

/-- C10: a transport-level failure of the dockge existence check (the
channel erroring, hence exit code -1) is treated exactly like the directory
being absent (exit code 1): the phase reports skipped success with the same
message and consumes only that one command outcome. -/
theorem claim_C10_check_failure_reported_as_skip :
    ∀ (dockge_dir backup_dir ts reason : String) (rest : List CmdOutcome)
      (issued : List String) (arch : List Archive),
      backup_dockge dockge_dir backup_dir ts ⟨.channelError reason :: rest, issued, arch⟩
        = ((true, "Dockge directory not found (skipped)"),
           ⟨rest, issued ++ [dockgeCheckCmd dockge_dir], arch⟩)
      ∧ backup_dockge dockge_dir backup_dir ts
          ⟨.channelError reason :: rest, issued, arch⟩
        = backup_dockge dockge_dir backup_dir ts
          ⟨.result 1 "" "" :: rest, issued, arch⟩ := by
  intro dockge_dir backup_dir ts reason rest issued arch
  constructor
  · simp [backup_dockge, exec1, exec_command]
  · simp [backup_dockge, exec1, exec_command]

/-- Helper: the success message of the stacks phase never collides with the
"no stacks" message (they differ in their first character). -/
theorem backedUpMsg_ne (n : Nat) :
    "Backed up " ++ toString n ++ " stacks" ≠ "No stacks found" := by
  intro h
  have h2 : ("Backed up " ++ toString n ++ " stacks").data.head? = some 'B' := by
    rw [String.data_append, String.data_append]
    rfl
  rw [h] at h2
  exact absurd h2 (by decide)

/-- C2 counterexample: a run in which the stack listing succeeds and yields
zero stack subdirectories (third conjunct: the stacks phase, at exactly the
state it is entered in during this run, reports "No stacks found"), the
dockge directory is absent and no archive pre-exists locally — the whole
run returns failure, not success. -/
theorem claim_C2_counterexample :
    (execute_backup c2Cfg c2Env).success = false
    ∧ (execute_backup c2Cfg c2Env).message = "No backup files found after download"
    ∧ backup_stacks stacksDirDefault "/tmp/dockge-backup" "2025_001_120000"
        ⟨[.result 0 "" "", .result 1 "" ""], [mkdirCmd "/tmp/dockge-backup"], []⟩
      = ((true, "No stacks found"),
         ⟨[.result 1 "" ""],
          [mkdirCmd "/tmp/dockge-backup", findStacksCmd stacksDirDefault], []⟩) := by
  refine ⟨by decide, by decide, by decide⟩

/-- C2 (amended): when the stack listing succeeds and yields zero stack
subdirectories, the stacks phase succeeds with the message "No stacks
found", distinct from every "Backed up N stacks" message, and the run
proceeds to the next phase; the run as a whole succeeds only if the later
phases (in particular verification, which needs at least one plausible
archive) also succeed. -/
theorem claim_C2_no_stacks_phase_success :
    ∀ (stacks_dir backup_dir ts out err : String) (rest : List CmdOutcome)
      (issued : List String) (arch : List Archive),
      parseStackDirs out = [] →
      backup_stacks stacks_dir backup_dir ts
          ⟨CmdOutcome.result 0 out err :: rest, issued, arch⟩
        = ((true, "No stacks found"),
           ⟨rest, issued ++ [findStacksCmd stacks_dir], arch⟩)
      ∧ ∀ n : Nat, "Backed up " ++ toString n ++ " stacks" ≠ "No stacks found" := by
  intro stacks_dir backup_dir ts out err rest issued arch hempty
  constructor
  · simp [backup_stacks, exec1, exec_command, hempty]
  · exact backedUpMsg_ne

/-- Witness for the amended C2 at a concrete empty listing. -/
theorem claim_C2_no_stacks_phase_success_witness :
    backup_stacks "/opt/stacks" "/tmp/b" "t" ⟨[CmdOutcome.result 0 "" ""], [], []⟩
      = ((true, "No stacks found"), ⟨[], [findStacksCmd "/opt/stacks"], []⟩)
    ∧ ¬ ("Backed up " ++ toString (0:Nat) ++ " stacks" = "No stacks found") :=
  ⟨(claim_C2_no_stacks_phase_success "/opt/stacks" "/tmp/b" "t" "" "" [] [] []
      (by decide)).1,
   (claim_C2_no_stacks_phase_success "/opt/stacks" "/tmp/b" "t" "" "" [] [] []
      (by decide)).2 0⟩

/-- Helper for C3: a vanished or implausibly small file makes the
verification loop produce a failure message. -/
theorem verifyLoop_isSome_of_bad (files : List (String × Option Nat))
    (p : String) (sz : Option Nat) (hmem : (p, sz) ∈ files)
    (hbad : sz = none ∨ ∃ n, sz = some n ∧ n < 100) :
    ∃ m, verifyLoop files = some m := by
  induction files with
  | nil => simp at hmem
  | cons head tail ih =>
    obtain ⟨q, osz⟩ := head
    cases osz with
    | none => exact ⟨"Backup file missing: " ++ q, rfl⟩
    | some n =>
      by_cases hn : n < 100
      · exact ⟨"Backup file too small: " ++ q ++ " (" ++ toString n ++ " bytes)",
          by simp [verifyLoop, hn]⟩
      · rcases List.mem_cons.mp hmem with heq | htail
        · injection heq with h1 h2
          subst h2
          rcases hbad with h0 | ⟨m, hm, hlt⟩
          · simp at h0
          · have hnm := Option.some.inj hm
            subst hnm
            exact absurd hlt hn
        · obtain ⟨m, hm⟩ := ih htail
          exact ⟨m, by simp [verifyLoop, hn, hm]⟩

/-- Helper for C3: verification fails on an empty file list and on any list
holding a vanished or sub-100-byte file. -/
theorem verify_backups_false_of_bad (files : List (String × Option Nat))
    (h : files = [] ∨ ∃ p sz, (p, sz) ∈ files
      ∧ (sz = none ∨ ∃ n, sz = some n ∧ n < 100)) :
    (verify_backups files).1 = false := by
  rcases h with h | ⟨p, sz, hmem, hbad⟩
  · subst h; rfl
  · have hne : files.isEmpty = false := by
      cases files with
      | nil => simp at hmem
      | cons a l => rfl
    obtain ⟨m, hm⟩ := verifyLoop_isSome_of_bad files p sz hmem hbad
    simp [verify_backups, hne, hm]

/-- C3: whenever verification time arrives with every prior phase reporting
success (the hypothesis pins the pipeline state before verification), a
local file list that is empty or holds a vanished or sub-100-byte archive
makes the whole run fail. -/
theorem claim_C3_verify_fails_run :
    ∀ (cfg : MachineConfig) (env : RunEnv) (files : List (String × Option Nat))
      (warns : List String) (st : ExecSt),
      phasesBeforeVerify cfg env env.timestamp = .ok (files, warns, st) →
      (files = [] ∨ ∃ p sz, (p, sz) ∈ files
        ∧ (sz = none ∨ ∃ n, sz = some n ∧ n < 100)) →
      (execute_backup cfg env).success = false := by
  intro cfg env files warns st hph hbad
  have hv : (verify_backups files).1 = false := verify_backups_false_of_bad files hbad
  simp only [execute_backup]
  split
  · rfl
  · rw [hph]
    simp [hv]

/-- Witness for C3: a concrete run in which every phase up to the download
succeeds and the only archive is 50 bytes — the run fails. -/
theorem claim_C3_verify_fails_run_witness :
    (execute_backup c3Cfg c3Env).success = false :=
  claim_C3_verify_fails_run c3Cfg c3Env
    [("/backups/app1/app1_2025_002_130000.tar.gz", some 50)] []
    ⟨[], [mkdirCmd "/tmp/dockge-backup", findStacksCmd stacksDirDefault,
          mkdirCmd "/tmp/dockge-backup/app1",
          tarStackCmd stacksDirDefault "/tmp/dockge-backup/app1" "app1"
            "2025_002_130000",
          dockgeCheckCmd dockgeDirDefault],
      [⟨"app1", "app1_2025_002_130000.tar.gz"⟩]⟩
    rfl
    (Or.inr ⟨"/backups/app1/app1_2025_002_130000.tar.gz", some 50,
      by decide, Or.inr ⟨50, rfl, by decide⟩⟩)

/-- C8: when every phase through verification succeeds and the remote
recursive delete then exits nonzero, the run still reports overall success
with its normal success message, and the cleanup failure is recorded as a
distinct warning. -/
theorem claim_C8_cleanup_failure_nonfatal :
    ∀ (cfg : MachineConfig) (env : RunEnv) (files : List (String × Option Nat))
      (warns : List String) (pend : List CmdOutcome) (issued : List String)
      (arch : List Archive) (code : Int) (out err : String),
      (SSHClient.connect cfg.ssh_key_path cfg.ssh_password env.fileExists env.netOk
          ⟨false, false⟩).ok = true →
      phasesBeforeVerify cfg env env.timestamp
        = .ok (files, warns, ⟨CmdOutcome.result code out err :: pend, issued, arch⟩) →
      (verify_backups files).1 = true →
      code ≠ 0 →
      (execute_backup cfg env).success = true
      ∧ (execute_backup cfg env).message
          = "Backup completed successfully for " ++ cfg.id
      ∧ "Cleanup warning: Failed to cleanup remote backup directory"
          ∈ (execute_backup cfg env).warnings := by
  intro cfg env files warns pend issued arch code out err hconn hph hv hcode
  have hrun : execute_backup cfg env
      = finishRun cfg files warns ⟨CmdOutcome.result code out err :: pend, issued, arch⟩ := by
    simp only [execute_backup, hconn]
    rw [hph]
    simp [hv]
  rw [hrun]
  simp [finishRun, cleanup_remote, exec1, exec_command, hcode]

/-- Witness for C8: a concrete run whose remote `rm -rf` exits 1 — overall
success with the cleanup warning recorded. -/
theorem claim_C8_cleanup_failure_nonfatal_witness :
    (execute_backup c8Cfg c8Env).success = true
    ∧ (execute_backup c8Cfg c8Env).message = "Backup completed successfully for "
        ++ c8Cfg.id
    ∧ "Cleanup warning: Failed to cleanup remote backup directory"
        ∈ (execute_backup c8Cfg c8Env).warnings :=
  claim_C8_cleanup_failure_nonfatal c8Cfg c8Env
    [("/backups/app1/app1_2025_004_150000.tar.gz", some 1000)] []
    [] [mkdirCmd "/tmp/dockge-backup", findStacksCmd stacksDirDefault,
        mkdirCmd "/tmp/dockge-backup/app1",
        tarStackCmd stacksDirDefault "/tmp/dockge-backup/app1" "app1"
          "2025_004_150000",
        dockgeCheckCmd dockgeDirDefault]
    [⟨"app1", "app1_2025_004_150000.tar.gz"⟩]
    1 "" "removal failed"
    rfl rfl rfl (by decide)

/-- Helper: issuing a command never changes the recorded archives. -/
theorem exec1_archives (cmd : String) (st : ExecSt) :
    ((exec1 cmd st).2).archives = st.archives := by
  obtain ⟨pend, iss, arch⟩ := st
  cases pend <;> rfl

/-- Helper: appending one freshly stamped archive preserves the stamp
invariant. -/
theorem ArchivesStamped.append_one {ts : String} {l : List Archive}
    (h : ArchivesStamped ts l) (src : String) :
    ArchivesStamped ts (l ++ [⟨src, archiveName src ts⟩]) := by
  intro a ha
  rcases List.mem_append.mp ha with h1 | h1
  · exact h a h1
  · rcases List.mem_singleton.mp h1 with rfl
    rfl

/-- Helper: one stack iteration only ever adds an archive stamped with the
run timestamp. -/
theorem stamped_backup_one_stack (stacks_dir backup_dir ts p : String)
    (st : ExecSt) (h : ArchivesStamped ts st.archives) :
    ArchivesStamped ts ((backup_one_stack stacks_dir backup_dir ts p st).2).archives := by
  obtain ⟨pend, iss, arch⟩ := st
  simp only [backup_one_stack, exec1]
  cases pend with
  | nil =>
      split
      · exact h
      · exact h.append_one _
  | cons o rest =>
      cases rest with
      | nil =>
          split
          · exact h
          · exact h.append_one _
      | cons o2 rest2 =>
          split
          · exact h
          · exact h.append_one _

/-- Helper: the stack loop preserves the stamp invariant. -/
theorem stamped_backup_stacks_loop (stacks_dir backup_dir ts : String)
    (paths : List String) (st : ExecSt) (h : ArchivesStamped ts st.archives) :
    ArchivesStamped ts
      ((backup_stacks_loop stacks_dir backup_dir ts paths st).2).archives := by
  induction paths generalizing st with
  | nil => exact h
  | cons p rest ih =>
      simp only [backup_stacks_loop]
      cases hb : backup_one_stack stacks_dir backup_dir ts p st with
      | mk msg st2 =>
        have h2 : ArchivesStamped ts st2.archives := by
          have h3 := stamped_backup_one_stack stacks_dir backup_dir ts p st h
          rw [hb] at h3
          exact h3
        cases msg with
        | none => exact ih st2 h2
        | some m => exact h2

/-- Helper: the stacks phase preserves the stamp invariant. -/
theorem stamped_backup_stacks (stacks_dir backup_dir ts : String)
    (st : ExecSt) (h : ArchivesStamped ts st.archives) :
    ArchivesStamped ts ((backup_stacks stacks_dir backup_dir ts st).2).archives := by
  simp only [backup_stacks]
  cases he : exec1 (findStacksCmd stacks_dir) st with
  | mk r st1 =>
    have h1 : ArchivesStamped ts st1.archives := by
      have h3 := exec1_archives (findStacksCmd stacks_dir) st
      rw [he] at h3
      rw [show st1.archives = st.archives from h3]
      exact h
    split
    · exact h1
    · split
      · exact h1
      · cases hl : backup_stacks_loop stacks_dir backup_dir ts
            (parseStackDirs r.2.1) st1 with
        | mk msg st2 =>
          have h2 : ArchivesStamped ts st2.archives := by
            have h4 := stamped_backup_stacks_loop stacks_dir backup_dir ts
              (parseStackDirs r.2.1) st1 h1
            rw [hl] at h4
            exact h4
          cases msg with
          | none => exact h2
          | some m => exact h2

/-- Helper: the dockge phase preserves the stamp invariant. -/
theorem stamped_backup_dockge (dockge_dir backup_dir ts : String)
    (st : ExecSt) (h : ArchivesStamped ts st.archives) :
    ArchivesStamped ts ((backup_dockge dockge_dir backup_dir ts st).2).archives := by
  simp only [backup_dockge]
  cases he : exec1 (dockgeCheckCmd dockge_dir) st with
  | mk r st1 =>
    have h1 : ArchivesStamped ts st1.archives := by
      have h3 := exec1_archives (dockgeCheckCmd dockge_dir) st
      rw [he] at h3
      rw [show st1.archives = st.archives from h3]
      exact h
    split
    · exact h1
    · cases he2 : exec1 (mkdirCmd (backup_dir ++ "/dockge")) st1 with
      | mk r2 st2 =>
        have h2 : ArchivesStamped ts st2.archives := by
          have h3 := exec1_archives (mkdirCmd (backup_dir ++ "/dockge")) st1
          rw [he2] at h3
          rw [show st2.archives = st1.archives from h3]
          exact h1
        cases he3 : exec1 (tarDockgeCmd dockge_dir (backup_dir ++ "/dockge") ts) st2 with
        | mk r3 st3 =>
          have h4 : ArchivesStamped ts st3.archives := by
            have h3 := exec1_archives (tarDockgeCmd dockge_dir (backup_dir ++ "/dockge") ts) st2
            rw [he3] at h3
            rw [show st3.archives = st2.archives from h3]
            exact h2
          split
          · exact h4
          · exact h4.append_one _

/-- Helper: scratch-directory creation preserves the stamp invariant. -/
theorem stamped_create_remote_backup_dir (ts d : String) (st : ExecSt)
    (h : ArchivesStamped ts st.archives) :
    ArchivesStamped ts ((create_remote_backup_dir d st).2).archives := by
  simp only [create_remote_backup_dir]
  cases he : exec1 (mkdirCmd d) st with
  | mk r st1 =>
    have h3 := exec1_archives (mkdirCmd d) st
    rw [he] at h3
    have h1 : ArchivesStamped ts st1.archives := by
      rw [show st1.archives = st.archives from h3]
      exact h
    split
    · exact h1
    · exact h1

/-- Helper: the entry loop of `download_directory` on the staged scratch
tree — every entry is a per-source directory, so failures inside them are
swallowed and the loop itself always succeeds, writing exactly the archives
whose `sftp.get` succeeded at their mirrored paths. -/
theorem downloadEntries_scratch (env : RunEnv) (local_dir : String)
    (archives : List Archive) :
    downloadEntries local_dir (archives.map (fun a =>
        RNode.dir a.source true [RNode.file a.filename (env.transferOk a)]))
      = (true, (archives.filter (fun a => env.transferOk a)).map
          (fun a => mirrorPath local_dir a)) := by
  induction archives with
  | nil => simp [downloadEntries]
  | cons a rest ih =>
      simp only [List.map_cons, downloadEntries, download_directory,
        List.filter_cons]
      by_cases h : env.transferOk a
      · simp [h, ih, downloadEntries, mirrorPath]
      · simp [h, ih, downloadEntries]

/-- Helper: `download_directory` on the staged scratch tree returns the
scratch-root listing outcome as its boolean — partial transfer failures do
not surface — together with the mirrored paths of the transferred
archives. -/
theorem download_scratch_spec (env : RunEnv) (local_dir : String)
    (archives : List Archive) :
    download_directory local_dir (scratchTreeOf env archives)
      = (env.scratchListOk,
         if env.scratchListOk then
           (archives.filter (fun a => env.transferOk a)).map
             (fun a => mirrorPath local_dir a)
         else []) := by
  cases hs : env.scratchListOk with
  | false => simp [scratchTreeOf, download_directory, hs]
  | true => simp [scratchTreeOf, download_directory, hs,
      downloadEntries_scratch env local_dir archives]

/-- Helper: the pipeline before verification establishes `PhProp` on its
result. -/
theorem phases_inv (cfg : MachineConfig) (env : RunEnv) (ts : String) :
    PhProp cfg env ts (phasesBeforeVerify cfg env ts) := by
  have h0 : ArchivesStamped ts (⟨env.cmds, [], []⟩ : ExecSt).archives := by
    intro a ha
    simp at ha
  simp only [phasesBeforeVerify]
  cases h1 : create_remote_backup_dir (cfg.remote_tmp_dir.getD "/tmp/dockge-backup")
      ⟨env.cmds, [], []⟩ with
  | mk r1 st1 =>
    have hst1 : ArchivesStamped ts st1.archives := by
      have hx := stamped_create_remote_backup_dir ts
        (cfg.remote_tmp_dir.getD "/tmp/dockge-backup") ⟨env.cmds, [], []⟩ h0
      rw [h1] at hx
      exact hx
    split
    · exact hst1
    · cases h2 : backup_stacks stacksDirDefault
          (cfg.remote_tmp_dir.getD "/tmp/dockge-backup") ts st1 with
      | mk r2 st2 =>
        have hst2 : ArchivesStamped ts st2.archives := by
          have hx := stamped_backup_stacks stacksDirDefault
            (cfg.remote_tmp_dir.getD "/tmp/dockge-backup") ts st1 hst1
          rw [h2] at hx
          exact hx
        split
        · exact hst2
        · cases h3 : backup_dockge dockgeDirDefault
              (cfg.remote_tmp_dir.getD "/tmp/dockge-backup") ts st2 with
          | mk r3 st3 =>
            have hst3 : ArchivesStamped ts st3.archives := by
              have hx := stamped_backup_dockge dockgeDirDefault
                (cfg.remote_tmp_dir.getD "/tmp/dockge-backup") ts st2 hst2
              rw [h3] at hx
              exact hx
            split
            · exact hst3
            · cases hl : cfg.local_backup_dir with
              | none => exact hst3
              | some local_dir =>
                  cases hd : env.scratchListOk with
                  | false =>
                      simp only [download_backups,
                        download_scratch_spec env local_dir st3.archives, hd]
                      exact hst3
                  | true =>
                      simp only [download_backups,
                        download_scratch_spec env local_dir st3.archives, hd,
                        if_true, List.map_map]
                      exact ⟨hst3, local_dir, hl, rfl⟩

/-- Helper: remote cleanup never changes the recorded archives. -/
theorem cleanup_remote_archives (d : String) (st : ExecSt) :
    ((cleanup_remote d st).2).archives = st.archives := by
  simp only [cleanup_remote]
  cases he : exec1 (rmCmd d) st with
  | mk r st1 =>
    have h3 := exec1_archives (rmCmd d) st
    rw [he] at h3
    split
    · exact h3
    · exact h3

/-- Helper: the closing phase always reports success, keeps the run's
archives and reports the verification-time file list. -/
theorem finishRun_fields (cfg : MachineConfig) (files : List (String × Option Nat))
    (warns : List String) (st : ExecSt) :
    (finishRun cfg files warns st).success = true
    ∧ (finishRun cfg files warns st).archives = st.archives
    ∧ (finishRun cfg files warns st).localFiles = files := by
  simp only [finishRun]
  cases hc : cleanup_remote (cfg.remote_tmp_dir.getD "/tmp/dockge-backup") st with
  | mk cr st2 =>
    have h3 := cleanup_remote_archives (cfg.remote_tmp_dir.getD "/tmp/dockge-backup") st
    rw [hc] at h3
    exact ⟨trivial, h3, trivial⟩

/-- C5 (amended): every archive a run records carries the run's single
timestamp token in its file name (`<source>_<timestamp>.tar.gz`), and on a
successful run each such archive whose transfer succeeded is present in the
local destination tree at
`<local_backup_dir>/<source>/<source>_<timestamp>.tar.gz`; an archive whose
transfer failed inside its per-source subdirectory may be missing from an
otherwise successful run (the failure is swallowed at ssh_client.py line
161). -/
theorem claim_C5_single_token_layout :
    ∀ (cfg : MachineConfig) (env : RunEnv),
      ArchivesStamped env.timestamp (execute_backup cfg env).archives
      ∧ (∀ local_dir, cfg.local_backup_dir = some local_dir →
          (execute_backup cfg env).success = true →
          ∀ a ∈ (execute_backup cfg env).archives, env.transferOk a = true →
            (local_dir ++ "/" ++ a.source ++ "/" ++ a.filename,
              some (env.sizeOf (local_dir ++ "/" ++ a.source ++ "/" ++ a.filename)))
              ∈ (execute_backup cfg env).localFiles) := by
  intro cfg env
  have hinv := phases_inv cfg env env.timestamp
  by_cases hconn : (SSHClient.connect cfg.ssh_key_path cfg.ssh_password
      env.fileExists env.netOk ⟨false, false⟩).ok = false
  · have hr : execute_backup cfg env
        = { success := false, message := "Failed to connect to " ++ cfg.host,
            warnings := [], issued := [], archives := [], localFiles := [],
            closed := true } := by
      simp [execute_backup, hconn]
    rw [hr]
    constructor
    · intro a ha
      simp at ha
    · intro local_dir hld hsucc
      simp at hsucc
  · have hconn2 : (SSHClient.connect cfg.ssh_key_path cfg.ssh_password
        env.fileExists env.netOk ⟨false, false⟩).ok = true := by
      revert hconn
      cases (SSHClient.connect cfg.ssh_key_path cfg.ssh_password
        env.fileExists env.netOk ⟨false, false⟩).ok
      · intro hc; exact absurd rfl hc
      · intro hc; rfl
    cases hph : phasesBeforeVerify cfg env env.timestamp with
    | error e =>
        obtain ⟨msg, st⟩ := e
        rw [hph] at hinv
        have hr : execute_backup cfg env
            = { success := false, message := msg, warnings := [],
                issued := st.issued, archives := st.archives, localFiles := [],
                closed := true } := by
          simp only [execute_backup, hconn2]
          rw [hph]
          simp
        rw [hr]
        exact ⟨hinv, fun local_dir hld hsucc => by simp at hsucc⟩
    | ok res =>
        obtain ⟨files, warns, st⟩ := res
        rw [hph] at hinv
        obtain ⟨hst, local0, hld0, hfiles⟩ := hinv
        cases hv : (verify_backups files).1 with
        | false =>
            have hr : execute_backup cfg env
                = { success := false, message := (verify_backups files).2,
                    warnings := warns, issued := st.issued,
                    archives := st.archives, localFiles := files,
                    closed := true } := by
              simp only [execute_backup, hconn2]
              rw [hph]
              simp [hv]
            rw [hr]
            exact ⟨hst, fun local_dir hld hsucc => by simp at hsucc⟩
        | true =>
            have hr : execute_backup cfg env = finishRun cfg files warns st := by
              simp only [execute_backup, hconn2]
              rw [hph]
              simp [hv]
            obtain ⟨hfs, hfa, hfl⟩ := finishRun_fields cfg files warns st
            rw [hr, hfa, hfl]
            refine ⟨hst, ?_⟩
            intro local_dir hld hsucc a ha htr
            have hle : local0 = local_dir := by
              rw [hld0] at hld
              exact Option.some.inj hld
            subst hle
            rw [hfiles]
            refine List.mem_append_right _ ?_
            exact List.mem_map_of_mem
              (fun a => (mirrorPath local0 a,
                some (env.sizeOf (mirrorPath local0 a))))
              (List.mem_filter.mpr ⟨ha, htr⟩)

/-- Witness for the amended C5: the concrete two-source run with every
transfer succeeding — both archives of the run carry its token, and the
stack archive appears at its mirrored local path. -/
theorem claim_C5_single_token_layout_witness :
    ArchivesStamped "2025_003_140000" (execute_backup c5Cfg c5Env).archives
    ∧ ("/backups/app1/app1_2025_003_140000.tar.gz", some 4096)
        ∈ (execute_backup c5Cfg c5Env).localFiles :=
  ⟨(claim_C5_single_token_layout c5Cfg c5Env).1,
   (claim_C5_single_token_layout c5Cfg c5Env).2 "/backups" rfl (by decide)
     ⟨"app1", "app1_2025_003_140000.tar.gz"⟩ (by decide) (by decide)⟩

/-- C5 counterexample: a run in which two stacks archive remotely with the
shared token but the second stack's archive fails to transfer inside its
per-source subdirectory.  The download phase swallows the failure
(ssh_client.py line 161), verification passes on the first archive alone,
and the run reports success — yet the second archive produced by the run is
absent from the local destination tree, so the claimed layout does not hold
for each source of a successful run. -/
theorem claim_C5_partial_mirror_counterexample :
    (execute_backup c5xCfg c5xEnv).success = true
    ∧ (⟨"app2", "app2_2025_005_160000.tar.gz"⟩ : Archive)
        ∈ (execute_backup c5xCfg c5xEnv).archives
    ∧ "/backups/app2/app2_2025_005_160000.tar.gz"
        ∉ ((execute_backup c5xCfg c5xEnv).localFiles.map Prod.fst) := by
  refine ⟨by decide, by decide, by decide⟩

/-- Helper: insertion produces a permutation of consing. -/
theorem insertByMtime_perm (a : LFile) (l : List LFile) :
    (insertByMtime a l).Perm (a :: l) := by
  induction l with
  | nil => exact List.Perm.refl _
  | cons b t ih =>
      simp only [insertByMtime]
      split
      · exact List.Perm.refl _
      · exact (ih.cons b).trans (List.Perm.swap a b t)

/-- Helper: the fold of insertions permutes the accumulator and the input. -/
theorem foldl_insert_perm (l acc : List LFile) :
    (l.foldl (fun acc a => insertByMtime a acc) acc).Perm (acc ++ l) := by
  induction l generalizing acc with
  | nil => simp
  | cons a t ih =>
      simp only [List.foldl_cons]
      refine (ih (insertByMtime a acc)).trans ?_
      refine (((insertByMtime_perm a acc).append_right t).trans ?_)
      exact List.perm_middle.symm

/-- Helper: the retention sort permutes its input. -/
theorem sortByMtimeDesc_perm (l : List LFile) : (sortByMtimeDesc l).Perm l := by
  simpa using foldl_insert_perm l []

/-- Helper: insertion preserves descending order by modification time. -/
theorem insertByMtime_sorted {a : LFile} {l : List LFile}
    (h : l.Pairwise (fun x y => y.mtime ≤ x.mtime)) :
    (insertByMtime a l).Pairwise (fun x y => y.mtime ≤ x.mtime) := by
  induction l with
  | nil => simp [insertByMtime]
  | cons b t ih =>
      rcases List.pairwise_cons.mp h with ⟨hb, ht⟩
      simp only [insertByMtime]
      split
      · rename_i hlt
        refine List.pairwise_cons.mpr ⟨?_, h⟩
        intro x hx
        rcases List.mem_cons.mp hx with rfl | hx
        · exact Nat.le_of_lt hlt
        · exact le_trans (hb x hx) (Nat.le_of_lt hlt)
      · rename_i hge
        refine List.pairwise_cons.mpr ⟨?_, ih ht⟩
        intro x hx
        have hx2 := (insertByMtime_perm a t).mem_iff.mp hx
        rcases List.mem_cons.mp hx2 with rfl | hx2
        · exact Nat.le_of_not_lt hge
        · exact hb x hx2

/-- Helper: the retention sort is sorted newest first. -/
theorem sortByMtimeDesc_sorted (l : List LFile) :
    (sortByMtimeDesc l).Pairwise (fun x y => y.mtime ≤ x.mtime) := by
  suffices h : ∀ acc, acc.Pairwise (fun x y => y.mtime ≤ x.mtime) →
      (l.foldl (fun acc a => insertByMtime a acc) acc).Pairwise
        (fun x y => y.mtime ≤ x.mtime) by
    exact h [] (by simp)
  induction l with
  | nil => intro acc h; simpa using h
  | cons a t ih => intro acc h; exact ih _ (insertByMtime_sorted h)

/-- Helper: in a list sorted newest first whose modification times determine
its elements, the part after the first `k` entries is exactly the members
with at least `k` strictly newer entries. -/
theorem mem_drop_iff_rank (l : List LFile) (k : Nat)
    (hs : l.Pairwise (fun x y => y.mtime ≤ x.mtime))
    (hn : l.Nodup)
    (hinj : ∀ x ∈ l, ∀ y ∈ l, x.mtime = y.mtime → x = y) (f : LFile) :
    f ∈ l.drop k ↔ f ∈ l
      ∧ k ≤ (l.filter (fun g => decide (f.mtime < g.mtime))).length := by
  induction l generalizing k with
  | nil => simp
  | cons a t ih =>
      rcases List.pairwise_cons.mp hs with ⟨ha, ht⟩
      have hat : a ∉ t := (List.nodup_cons.mp hn).1
      have hnt : t.Nodup := (List.nodup_cons.mp hn).2
      have hinjt : ∀ x ∈ t, ∀ y ∈ t, x.mtime = y.mtime → x = y := by
        intro x hx y hy
        exact hinj x (List.mem_cons_of_mem a hx) y (List.mem_cons_of_mem a hy)
      have hlt_of_mem : ∀ g ∈ t, g.mtime < a.mtime := by
        intro g hg
        rcases Nat.lt_or_eq_of_le (ha g hg) with h | h
        · exact h
        · have hga : g = a :=
            hinj g (List.mem_cons_of_mem a hg) a (List.mem_cons_self a t) h
          exact absurd (hga ▸ hg) hat
      cases k with
      | zero => simp
      | succ k =>
          rw [List.drop_succ_cons, ih k ht hnt hinjt]
          constructor
          · rintro ⟨hft, hk⟩
            refine ⟨List.mem_cons_of_mem a hft, ?_⟩
            have hfa : f.mtime < a.mtime := hlt_of_mem f hft
            simp only [List.filter_cons, decide_eq_true_eq, if_pos hfa,
              List.length_cons]
            omega
          · rintro ⟨hfmem, hk⟩
            rcases List.mem_cons.mp hfmem with rfl | hft
            · exfalso
              have hzero :
                  (List.filter (fun g => decide (f.mtime < g.mtime)) (f :: t)).length
                    = 0 := by
                rw [List.length_eq_zero, List.filter_eq_nil_iff]
                intro g hg
                rcases List.mem_cons.mp hg with rfl | hg
                · simp
                · simp only [decide_eq_true_eq]
                  exact Nat.not_lt.mpr (Nat.le_of_lt (hlt_of_mem g hg))
              omega
            · refine ⟨hft, ?_⟩
              have hfa : f.mtime < a.mtime := hlt_of_mem f hft
              simp only [List.filter_cons, decide_eq_true_eq, if_pos hfa,
                List.length_cons] at hk
              omega

/-- Helper: insertion only looks at modification times, so it commutes with
a change of file contents. -/
theorem insertByMtime_map_content (u : LFile → String) (a : LFile)
    (l : List LFile) :
    insertByMtime { a with content := u a }
        (l.map (fun f => { f with content := u f }))
      = (insertByMtime a l).map (fun f => { f with content := u f }) := by
  induction l with
  | nil => rfl
  | cons b t ih =>
      simp only [List.map_cons, insertByMtime]
      by_cases h : b.mtime < a.mtime
      · simp [h]
      · simp [h, ih]

/-- Helper: the retention sort commutes with a change of file contents. -/
theorem sortByMtimeDesc_map_content (u : LFile → String) (l : List LFile) :
    sortByMtimeDesc (l.map (fun f => { f with content := u f }))
      = (sortByMtimeDesc l).map (fun f => { f with content := u f }) := by
  suffices h : ∀ acc,
      (l.map (fun f => { f with content := u f })).foldl
          (fun acc a => insertByMtime a acc)
          (acc.map (fun f => { f with content := u f }))
        = (l.foldl (fun acc a => insertByMtime a acc) acc).map
            (fun f => { f with content := u f }) by
    simpa using h []
  induction l with
  | nil => intro acc; simp
  | cons a t ih =>
      intro acc
      simp only [List.map_cons, List.foldl_cons]
      rw [insertByMtime_map_content]
      exact ih (insertByMtime a acc)

/-- Helper: retention pruning never inspects file contents — changing every
content blob commutes with pruning. -/
theorem pruneDir_content_blind (keep : Nat) (u : LFile → String)
    (files : List LFile) :
    pruneDir keep (files.map (fun f => { f with content := u f }))
      = (pruneDir keep files).map (fun f => { f with content := u f }) := by
  simp only [pruneDir]
  have hfil : (files.map (fun f => { f with content := u f })).filter
        (fun f => endsWithStr f.name ".tar.gz")
      = (files.filter (fun f => endsWithStr f.name ".tar.gz")).map
          (fun f => { f with content := u f }) := by
    rw [List.filter_map]
    rfl
  rw [hfil, List.length_map]
  by_cases h : (files.filter (fun f => endsWithStr f.name ".tar.gz")).length ≤ keep
  · rw [if_pos h, if_pos h]
  · rw [if_neg h, if_neg h]
    rw [sortByMtimeDesc_map_content, ← List.map_drop]
    have hR : List.filter (fun f => !f.removeFails)
          (List.map (fun f => { f with content := u f })
            (List.drop keep (sortByMtimeDesc
              (List.filter (fun f => endsWithStr f.name ".tar.gz") files))))
        = List.map (fun f => { f with content := u f })
            (List.filter (fun f => !f.removeFails)
              (List.drop keep (sortByMtimeDesc
                (List.filter (fun f => endsWithStr f.name ".tar.gz") files)))) := by
      rw [List.filter_map]
      rfl
    rw [hR, List.map_map]
    rw [show (LFile.name ∘ fun f => ({ f with content := u f } : LFile))
        = LFile.name from rfl]
    rw [List.filter_map]
    rfl

/-- Helper: membership in an over-quota pruned directory — a file survives
unless it lies beyond the first `keep` entries of the newest-first order and
its deletion succeeds. -/
theorem pruneDir_mem_iff (keep : Nat) (files : List LFile)
    (hnames : (files.map LFile.name).Nodup)
    (hlen : keep < (files.filter (fun g => endsWithStr g.name ".tar.gz")).length)
    (f : LFile) (hf : f ∈ files) :
    f ∈ pruneDir keep files ↔
      ¬ (f ∈ (sortByMtimeDesc
            (files.filter (fun g => endsWithStr g.name ".tar.gz"))).drop keep
          ∧ f.removeFails = false) := by
  have hperm := sortByMtimeDesc_perm
    (files.filter (fun g => endsWithStr g.name ".tar.gz"))
  have hA : ∀ x, x ∈ (((sortByMtimeDesc
        (files.filter (fun g => endsWithStr g.name ".tar.gz"))).drop keep).filter
          (fun g => !g.removeFails)).map LFile.name
      ↔ ∃ g, g ∈ (sortByMtimeDesc
            (files.filter (fun g => endsWithStr g.name ".tar.gz"))).drop keep
          ∧ g.removeFails = false ∧ g.name = x := by
    intro x
    rw [List.mem_map]
    constructor
    · rintro ⟨g, hg, hgx⟩
      rw [List.mem_filter] at hg
      exact ⟨g, hg.1, by simpa using hg.2, hgx⟩
    · rintro ⟨g, hg1, hg2, hg3⟩
      exact ⟨g, List.mem_filter.mpr ⟨hg1, by simp [hg2]⟩, hg3⟩
  simp only [pruneDir]
  rw [if_neg (Nat.not_le.mpr hlen)]
  rw [List.mem_filter]
  simp only [decide_eq_true_eq]
  constructor
  · rintro ⟨-, hnot⟩ ⟨hdrop, hrf⟩
    exact hnot ((hA f.name).mpr ⟨f, hdrop, hrf, rfl⟩)
  · intro hno
    refine ⟨hf, fun hmem => ?_⟩
    obtain ⟨g, hgdrop, hgrf, hgname⟩ := (hA f.name).mp hmem
    have hgfiles : g ∈ files := by
      have h1 := List.mem_of_mem_drop hgdrop
      have h2 := hperm.mem_iff.mp h1
      exact (List.mem_filter.mp h2).1
    have hgf : g = f := List.inj_on_of_nodup_map hnames hgfiles hf hgname
    subst hgf
    exact hno ⟨hgdrop, hgrf⟩

/-- Helper: when every deletion succeeds, an over-quota directory retains
exactly `keep` matching archives. -/
theorem pruneDir_count (keep : Nat) (files : List LFile)
    (hnames : (files.map LFile.name).Nodup)
    (hlen : keep < (files.filter (fun g => endsWithStr g.name ".tar.gz")).length)
    (hall : ∀ f ∈ files, f.removeFails = false) :
    ((pruneDir keep files).filter (fun g => endsWithStr g.name ".tar.gz")).length
      = keep := by
  have hperm := sortByMtimeDesc_perm
    (files.filter (fun g => endsWithStr g.name ".tar.gz"))
  have hbN : ((files.filter (fun g => endsWithStr g.name ".tar.gz")).map
      LFile.name).Nodup :=
    List.Nodup.sublist (List.Sublist.map LFile.name (List.filter_sublist files))
      hnames
  have hbNodup : (files.filter (fun g => endsWithStr g.name ".tar.gz")).Nodup :=
    List.Nodup.of_map _ hbN
  have hsNodup : (sortByMtimeDesc
      (files.filter (fun g => endsWithStr g.name ".tar.gz"))).Nodup :=
    hperm.symm.nodup hbNodup
  have hfe : ((sortByMtimeDesc
        (files.filter (fun g => endsWithStr g.name ".tar.gz"))).drop keep).filter
          (fun g => !g.removeFails)
      = (sortByMtimeDesc
          (files.filter (fun g => endsWithStr g.name ".tar.gz"))).drop keep := by
    apply List.filter_eq_self.mpr
    intro g hg
    have hgf : g ∈ files :=
      (List.mem_filter.mp (hperm.mem_iff.mp (List.mem_of_mem_drop hg))).1
    simp [hall g hgf]
  simp only [pruneDir]
  rw [if_neg (Nat.not_le.mpr hlen), hfe]
  rw [List.filter_comm]
  rw [← (hperm.filter _).length_eq]
  generalize hsorteq : sortByMtimeDesc
    (files.filter (fun g => endsWithStr g.name ".tar.gz")) = S at *
  generalize hR : (S.drop keep).map LFile.name = R
  have hlenS : keep ≤ S.length := by
    rw [hperm.length_eq]
    exact le_of_lt hlen
  have hnd2 : (S.take keep ++ S.drop keep).Nodup := by
    rw [List.take_append_drop]
    exact hsNodup
  have hdisj := List.disjoint_of_nodup_append hnd2
  have htake : (S.take keep).filter (fun f => decide (f.name ∉ R)) = S.take keep := by
    apply List.filter_eq_self.mpr
    intro g hg
    simp only [decide_eq_true_eq]
    intro hmem
    rw [← hR] at hmem
    obtain ⟨g2, hg2drop, hg2name⟩ := List.mem_map.mp hmem
    have hg2files : g2 ∈ files :=
      (List.mem_filter.mp (hperm.mem_iff.mp (List.mem_of_mem_drop hg2drop))).1
    have hgfiles : g ∈ files :=
      (List.mem_filter.mp (hperm.mem_iff.mp (List.mem_of_mem_take hg))).1
    have hgg : g2 = g := List.inj_on_of_nodup_map hnames hg2files hgfiles hg2name
    subst hgg
    exact hdisj hg hg2drop
  have hdropnil : (S.drop keep).filter (fun f => decide (f.name ∉ R)) = [] := by
    apply List.filter_eq_nil_iff.mpr
    intro g hg
    simp only [decide_eq_true_eq, not_not]
    rw [← hR]
    exact List.mem_map_of_mem LFile.name hg
  calc (S.filter (fun f => decide (f.name ∉ R))).length
      = ((S.take keep ++ S.drop keep).filter
          (fun f => decide (f.name ∉ R))).length := by
        rw [List.take_append_drop]
    _ = ((S.take keep).filter (fun f => decide (f.name ∉ R))
          ++ (S.drop keep).filter (fun f => decide (f.name ∉ R))).length := by
        rw [List.filter_append]
    _ = (S.take keep).length := by
        rw [htake, hdropnil, List.append_nil]
    _ = keep := by
        rw [List.length_take]
        exact inf_eq_left.mpr hlenS

/-- C4: retention pruning prunes every walked directory independently; it
never inspects file content (changing all contents commutes with pruning);
a directory with at most `keep` matching archives is untouched;
non-matching files always survive; in an over-quota directory with distinct
names and distinct modification times a matching file survives exactly when
it is among the `keep` most recently modified or its own deletion fails
(so a failed deletion leaves that file while the other excess files are
still deleted); and when every deletion succeeds exactly `keep` matching
archives remain. -/
theorem claim_C4_retention_policy :
    ∀ (keep : Nat) (files : List LFile) (dirs : List (List LFile)),
      cleanup_old_backups keep dirs = dirs.map (pruneDir keep)
      ∧ (∀ u : LFile → String,
          pruneDir keep (files.map (fun f => { f with content := u f }))
            = (pruneDir keep files).map (fun f => { f with content := u f }))
      ∧ ((files.map LFile.name).Nodup →
         (∀ x ∈ files, ∀ y ∈ files, x.mtime = y.mtime → x = y) →
         (((files.filter (fun g => endsWithStr g.name ".tar.gz")).length ≤ keep →
             pruneDir keep files = files)
          ∧ (∀ f ∈ files, endsWithStr f.name ".tar.gz" = false →
               f ∈ pruneDir keep files)
          ∧ (keep < (files.filter (fun g => endsWithStr g.name ".tar.gz")).length →
              (∀ f ∈ files, endsWithStr f.name ".tar.gz" = true →
                 (f ∈ pruneDir keep files ↔
                   newerCount files f < keep ∨ f.removeFails = true))
              ∧ ((∀ f ∈ files, f.removeFails = false) →
                 ((pruneDir keep files).filter
                    (fun g => endsWithStr g.name ".tar.gz")).length = keep)))) := by
  intro keep files dirs
  refine ⟨rfl, fun u => pruneDir_content_blind keep u files, ?_⟩
  intro hnames hinj
  refine ⟨?_, ?_, ?_⟩
  · intro hle
    simp only [pruneDir]
    rw [if_pos hle]
  · intro f hf hnm
    by_cases hq : (files.filter (fun g => endsWithStr g.name ".tar.gz")).length ≤ keep
    · simp only [pruneDir]
      rw [if_pos hq]
      exact hf
    · have hlen := Nat.lt_of_not_le hq
      refine (pruneDir_mem_iff keep files hnames hlen f hf).mpr ?_
      rintro ⟨hdrop, -⟩
      have hmem := (sortByMtimeDesc_perm
        (files.filter (fun g => endsWithStr g.name ".tar.gz"))).mem_iff.mp
        (List.mem_of_mem_drop hdrop)
      have hmt := (List.mem_filter.mp hmem).2
      rw [hnm] at hmt
      exact Bool.false_ne_true hmt
  · intro hlen
    have hperm := sortByMtimeDesc_perm
      (files.filter (fun g => endsWithStr g.name ".tar.gz"))
    have hbN : ((files.filter (fun g => endsWithStr g.name ".tar.gz")).map
        LFile.name).Nodup :=
      List.Nodup.sublist (List.Sublist.map LFile.name (List.filter_sublist files))
        hnames
    have hbNodup : (files.filter (fun g => endsWithStr g.name ".tar.gz")).Nodup :=
      List.Nodup.of_map _ hbN
    have hsNodup : (sortByMtimeDesc
        (files.filter (fun g => endsWithStr g.name ".tar.gz"))).Nodup :=
      hperm.symm.nodup hbNodup
    have hsSorted := sortByMtimeDesc_sorted
      (files.filter (fun g => endsWithStr g.name ".tar.gz"))
    have hsInj : ∀ x ∈ sortByMtimeDesc
          (files.filter (fun g => endsWithStr g.name ".tar.gz")),
        ∀ y ∈ sortByMtimeDesc
          (files.filter (fun g => endsWithStr g.name ".tar.gz")),
        x.mtime = y.mtime → x = y := by
      intro x hx y hy
      exact hinj x (List.mem_filter.mp (hperm.mem_iff.mp hx)).1
        y (List.mem_filter.mp (hperm.mem_iff.mp hy)).1
    constructor
    · intro f hf hm
      have hfs : f ∈ sortByMtimeDesc
          (files.filter (fun g => endsWithStr g.name ".tar.gz")) :=
        hperm.mem_iff.mpr (List.mem_filter.mpr ⟨hf, hm⟩)
      have hrank : ((sortByMtimeDesc
            (files.filter (fun g => endsWithStr g.name ".tar.gz"))).filter
              (fun g => decide (f.mtime < g.mtime))).length
          = newerCount files f := by
        rw [(hperm.filter _).length_eq]
        rfl
      rw [pruneDir_mem_iff keep files hnames hlen f hf]
      rw [mem_drop_iff_rank _ keep hsSorted hsNodup hsInj f]
      rw [hrank]
      constructor
      · intro hn
        by_cases hrf : f.removeFails = true
        · exact Or.inr hrf
        · left
          have hrf2 : f.removeFails = false := by
            revert hrf
            cases f.removeFails
            · intro _; rfl
            · intro hc; exact absurd rfl hc
          by_contra hge
          exact hn ⟨⟨hfs, Nat.le_of_not_lt hge⟩, hrf2⟩
      · rintro (hlt | hrf) ⟨⟨-, hge⟩, hrf2⟩
        · omega
        · rw [hrf] at hrf2
          cases hrf2
    · intro hall
      exact pruneDir_count keep files hnames hlen hall

/-- Witness for C4 at the spec's scenario: retention count 3, five archives
with distinct modification times, the deletion of the oldest failing — the
failing file stays, the other excess file is still deleted (and, by the
count part at a failure-free variant, exactly the three newest would
remain). -/
theorem claim_C4_retention_policy_witness :
    c4f1 ∈ pruneDir 3 c4Files ∧ c4f2 ∉ pruneDir 3 c4Files := by
  obtain ⟨-, -, h3⟩ := claim_C4_retention_policy 3 c4Files []
  obtain ⟨-, -, h5⟩ := h3 (by decide) (by decide)
  obtain ⟨hiff, -⟩ := h5 (by decide)
  constructor
  · exact (hiff c4f1 (by decide) (by decide)).mpr (Or.inr (by decide))
  · intro hmem
    rcases (hiff c4f2 (by decide) (by decide)).mp hmem with h | h
    · exact absurd h (by decide)
    · exact absurd h (by decide)
